import Mathlib

/-!
Verification development for the conda-store build-lifecycle and
access-control engine.  Definitions are shallow embeddings of
`conda_store_server/_internal/server/views/api.py` and of the registry,
authorization and key-value-store operations those views call.
-/

namespace CondaStoreSpec

/-! ## Authorization pattern matching -/

/-- All suffixes of a list, from the list itself down to `[]`. -/
def suffixes : List Char → List (List Char)
  | [] => [[]]
  | c :: cs => (c :: cs) :: suffixes cs

/-- Modelled from the spec: glob matching of one ARN segment against a
role-binding pattern segment.  The matcher itself is not under `src/`
(the views call `filter_environments` / compiled ARN regexes); the spec
describes `*` as a wildcard, and `test_list_environments_role_bindings`
pins the semantics: the pattern is compiled to a regex in which each `*`
becomes a character-class star, so `*` matches any run of characters
inside a segment (the test expects `pytest*/env*` to match `env1`,
`env2` and `env3`). -/
def matchGlob : List Char → List Char → Bool
  | [], s => s.isEmpty
  | c :: ps, s =>
    if c = '*' then (suffixes s).any fun t => matchGlob ps t
    else
      match s with
      | [] => false
      | d :: ds => c == d && matchGlob ps ds

/-- Split a character list into segments at every '/'. -/
def splitSeg : List Char → List (List Char)
  | [] => [[]]
  | '/' :: cs => [] :: splitSeg cs
  | c :: cs =>
    match splitSeg cs with
    | [] => [[c]]
    | s :: rest => (c :: s) :: rest

/-- Modelled from the spec: whole-ARN match.  The compiled pattern regex
keeps `/` literal and `*` never matches `/`, so a pattern matches an ARN
exactly when they have the same number of `/`-separated segments and each
pattern segment glob-matches the corresponding ARN segment. -/
def matchArn (pattern arn : String) : Bool :=
  let ps := splitSeg pattern.data
  let xs := splitSeg arn.data
  ps.length == xs.length &&
    (List.zip ps xs).all fun pa => matchGlob pa.1 pa.2

/-- Segment matching as the spec's words describe it: a pattern segment
matches an ARN segment exactly when it is literally equal to it or is the
single character `*`.  Kept only to compare the spec's description with
the code's semantics. -/
def matchSegSpecWords (p a : List Char) : Bool :=
  p == a || p == ['*']

/-- Whole-ARN matching under the spec's full-segment-wildcard-only
description, for comparison with `matchArn`. -/
def matchArnSpecWords (pattern arn : String) : Bool :=
  let ps := splitSeg pattern.data
  let xs := splitSeg arn.data
  ps.length == xs.length &&
    (List.zip ps xs).all fun pa => matchSegSpecWords pa.1 pa.2

/-- An environment row: namespace name and environment name. -/
structure Env where
  namespace_name : String
  name : String
  deriving DecidableEq, Repr

/-- The ARN of an environment, `namespace/environment`. -/
def envArn (e : Env) : String := e.namespace_name ++ "/" ++ e.name

/-- Modelled from the spec: `filter_environments` restricted to its
observable behaviour — keep exactly the environments whose ARN is matched
by the pattern of some role binding (every role grants at least READ). -/
def filter_environments (matcher : String → String → Bool)
    (role_bindings : List (String × List String)) (envs : List Env) : List Env :=
  envs.filter fun e => role_bindings.any fun b => matcher b.1 (envArn e)

/-- The four environments of the `populated_db` test fixture. -/
def testEnvs : List Env :=
  [ ⟨"pytest1", "env1"⟩, ⟨"pytest2", "env2"⟩,
    ⟨"pytest3", "env3"⟩, ⟨"pytest3", "foo"⟩ ]

/-! ## Token minting (`api_post_token`, views/api.py lines 231-273) -/

/-- Role bindings: map from ARN pattern to a list of role names. -/
abbrev Bindings := List (String × List String)

/-- An authentication token / entity, with expiration as epoch seconds. -/
structure AuthenticationToken where
  exp : Nat
  primary_namespace : String
  role_bindings : Bindings
  deriving DecidableEq, Repr

/-- The body of a POST `/token/` request; every field is optional. -/
structure TokenRequest where
  primary_namespace : Option String
  expiration : Option Nat
  role_bindings : Option Bindings
  deriving DecidableEq, Repr

/-- Result of a token-minting request: an issued token (its claims; the
encryption step is an opaque collaborator) or an HTTP error. -/
inductive TokenResult
  | ok (token : AuthenticationToken)
  | err (status : Nat) (detail : String)
  deriving DecidableEq, Repr

/-- Python `primary_namespace or entity.primary_namespace`: the empty
string is falsy and falls back to the default. -/
def orElseStr (v : Option String) (d : String) : String :=
  match v with
  | none => d
  | some s => if s = "" then d else s

/-- Python `role_bindings or get_entity_bindings(entity)`: `None` and the
empty dict are falsy and fall back to the entity's own bindings. -/
def orElseBindings (v : Option Bindings) (d : Bindings) : Bindings :=
  match v with
  | none => d
  | some [] => d
  | some bs => bs

/-- Seconds in `datetime.timedelta(days=1)`. -/
def oneDay : Nat := 86400

/-- The entity synthesized for an anonymous caller: expires one day from
now, default namespace, empty role bindings. -/
def anonymousEntity (now : Nat) (default_namespace : String) : AuthenticationToken :=
  { exp := now + oneDay
    primary_namespace := default_namespace
    role_bindings := [] }

/-- The `new_entity` built by `api_post_token` from the issuing entity and
the request body. -/
def mkNewEntity (get_entity_bindings : AuthenticationToken → Bindings)
    (entity : AuthenticationToken) (req : TokenRequest) : AuthenticationToken :=
  { exp := req.expiration.getD entity.exp
    primary_namespace := orElseStr req.primary_namespace entity.primary_namespace
    role_bindings := orElseBindings req.role_bindings (get_entity_bindings entity) }

/-- The POST `/token/` handler.  `get_entity_bindings` and
`is_subset_entity_permissions` are authorization collaborators not under
`src/`, passed in as functions. -/
def api_post_token
    (get_entity_bindings : AuthenticationToken → Bindings)
    (is_subset_entity_permissions : AuthenticationToken → AuthenticationToken → Bool)
    (now : Nat) (default_namespace : String)
    (entity? : Option AuthenticationToken) (req : TokenRequest) : TokenResult :=
  let entity := entity?.getD (anonymousEntity now default_namespace)
  let new_entity := mkNewEntity get_entity_bindings entity req
  if ¬ is_subset_entity_permissions entity new_entity then
    .err 400 "Requested role_bindings are not a subset of current permissions"
  else if entity.exp < new_entity.exp then
    .err 400 "Requested expiration of token is greater than current permissions"
  else
    .ok new_entity

/-! ## Namespace role mappings (registry operations, modelled) -/

/-- Roles stored in the database.  The spec's role enum; `editor` is an
accepted alias normalized to `developer` on insert/update. -/
inductive Role
  | viewer
  | developer
  | admin
  deriving DecidableEq, Repr

/-- Modelled from the spec: role-name validation used by
`create_namespace_role` / `update_namespace_role` (not under `src/`).
Unknown names are rejected with a ValueError-equivalent
`invalid role=X`; `editor` is stored as `developer`
(`test_namespace_role_mapping_v2`: always developer in the DB). -/
def parseRole : String → Option Role
  | "viewer" => some .viewer
  | "editor" => some .developer
  | "developer" => some .developer
  | "admin" => some .admin
  | _ => none

/-- One row of the `namespace_role_mapping_v2` table. -/
structure RoleRow where
  id : Nat
  namespace_name : String
  other_namespace : String
  role : Role
  deriving DecidableEq, Repr

/-- The role-mapping table plus its id sequence. -/
structure RoleRegistry where
  rows : List RoleRow
  nextId : Nat
  deriving DecidableEq, Repr

/-- Errors of the registry operations. -/
inductive RegError
  | duplicate
  | invalidRole (name : String)
  deriving DecidableEq, Repr

/-- Does a row for the directed pair `(ns, other)` exist? -/
def hasPair (st : RoleRegistry) (ns other : String) : Bool :=
  st.rows.any fun row => row.namespace_name == ns && row.other_namespace == other

/-- Modelled from the spec: `create_namespace_role` (not under `src/`).
Validates the role name, then inserts a new row; the database uniqueness
constraint on `(namespace_id, other_namespace_id)` rejects a second row
for the same directed pair with a DuplicateError-equivalent, leaving the
table unchanged. -/
def create_namespace_role (st : RoleRegistry) (ns other roleName : String) :
    Except RegError RoleRegistry :=
  match parseRole roleName with
  | none => .error (.invalidRole roleName)
  | some r =>
    if hasPair st ns other then
      .error .duplicate
    else
      .ok { rows := st.rows ++ [⟨st.nextId, ns, other, r⟩], nextId := st.nextId + 1 }

/-- Replacement of the role field on the row matching the directed pair,
leaving every other field and every other row unchanged. -/
def updRow (r : Role) (ns other : String) (row : RoleRow) : RoleRow :=
  if row.namespace_name == ns && row.other_namespace == other then
    { row with role := r }
  else row

/-- Modelled from the spec: `update_namespace_role` (not under `src/`).
Replaces only the `role` field of the row for the directed pair. -/
def update_namespace_role (st : RoleRegistry) (ns other roleName : String) :
    Except RegError RoleRegistry :=
  match parseRole roleName with
  | none => .error (.invalidRole roleName)
  | some r =>
    .ok { st with rows := st.rows.map (updRow r ns other) }

/-- Modelled from the spec: `delete_namespace_role` (not under `src/`).
Removes the row for the directed pair. -/
def delete_namespace_role (st : RoleRegistry) (ns other : String) : RoleRegistry :=
  { st with
    rows := st.rows.filter fun row =>
      ¬ (row.namespace_name == ns && row.other_namespace == other) }

/-- Modelled from the spec: `get_namespace_roles` (not under `src/`).
Lists the role mappings of a namespace in table order. -/
def get_namespace_roles (st : RoleRegistry) (ns : String) : List RoleRow :=
  st.rows.filter fun row => row.namespace_name == ns

/-- Table well-formedness: row ids strictly increase left to right (so
table order is insertion order) and stay below the id sequence. -/
def RegistryWF (st : RoleRegistry) : Prop :=
  st.rows.Pairwise (fun a b => a.id < b.id) ∧ ∀ row ∈ st.rows, row.id < st.nextId

/-- At most one row per directed pair `(namespace, other)`. -/
def PairUnique (st : RoleRegistry) : Prop :=
  st.rows.Pairwise fun a b =>
    ¬ (a.namespace_name = b.namespace_name ∧ a.other_namespace = b.other_namespace)

/-! ## Build lockfile endpoint (`api_get_build_lockfile`, views/api.py lines 1311-1353) -/

/-- Artifact types relevant to the lockfile endpoint. -/
inductive BuildArtifactType
  | lockfile
  | logs
  | yaml
  | condaPack
  | dockerManifest
  | constructorInstaller
  | directory
  deriving DecidableEq, Repr

/-- One `BuildArtifact` row. -/
structure BuildArtifact where
  artifact_type : BuildArtifactType
  key : String
  deriving DecidableEq, Repr

/-- Modelled from the spec: `list_build_artifacts` (not under `src/`)
restricted to `included_artifact_types` — the build's artifact rows whose
type is in the included list. -/
def list_build_artifacts (artifacts : List BuildArtifact)
    (included_artifact_types : List BuildArtifactType) : List BuildArtifact :=
  artifacts.filter fun ba => included_artifact_types.contains ba.artifact_type

/-- The response of the lockfile endpoint: either the lockfile
reconstructed from legacy fields (`get_build_lockfile_legacy`, returned
directly) or a redirect to a blob-store URL. -/
inductive LockfileResponse
  | legacy (build_id : Nat)
  | redirect (url : String)
  deriving DecidableEq, Repr

/-- The lockfile branch of `api_get_build_lockfile`, after the build is
resolved and authorized: if some registered LOCKFILE artifact has an
empty key, serve the legacy reconstruction, else redirect to the URL of
the build's `conda_lock_key`.  `get_url` is the storage collaborator. -/
def api_get_build_lockfile (get_url : String → String)
    (artifacts : List BuildArtifact) (conda_lock_key : String)
    (build_id : Nat) : LockfileResponse :=
  if (list_build_artifacts artifacts [BuildArtifactType.lockfile]).any
      fun ba => ba.key == "" then
    .legacy build_id
  else
    .redirect (get_url conda_lock_key)

/-! ## Build cancellation (`api_put_build_cancel`, views/api.py lines 1062-1116) -/

/-- Observable side effects of the cancellation handler on the task
runtime collaborator, in program order. -/
inductive CancelEffect
  | ping
  | revoke (task_names : List String) (terminate : Bool) (signal : String)
  | scheduleCleanup (build_ids : List Nat) (countdown : Nat)
  deriving DecidableEq, Repr

/-- An HTTP error (status code and detail). -/
structure HttpError where
  status : Nat
  detail : String
  deriving DecidableEq, Repr

/-- The four task names revoked for a build, `build-{id}-{phase}`. -/
def cancelTaskNames (build_id : Nat) : List String :=
  [ "build-" ++ toString build_id ++ "-conda-env-export",
    "build-" ++ toString build_id ++ "-conda-pack",
    "build-" ++ toString build_id ++ "-constructor-installer",
    "build-" ++ toString build_id ++ "-environment" ]

/-- The PUT `/build/{build_id}/cancel/` handler.  `build_exists` is
whether `api.get_build` found the build, `authorized` whether
`authorize_request` passed, `ping_alive` whether
`celery_app.control.inspect().ping()` returned a live answer.  The result
is paired with the ordered trace of task-runtime effects. -/
def api_put_build_cancel (build_exists authorized ping_alive : Bool)
    (build_id : Nat) : Except HttpError String × List CancelEffect :=
  if ¬ build_exists then
    (.error ⟨404, "build id does not exist"⟩, [])
  else if ¬ authorized then
    (.error ⟨403, "forbidden"⟩, [])
  else if ¬ ping_alive then
    (.error ⟨409, "conda-store celery broker does not support task cancelation"⟩,
     [CancelEffect.ping])
  else
    (.ok ("build " ++ toString build_id ++ " canceled"),
     [ CancelEffect.ping,
       CancelEffect.revoke (cancelTaskNames build_id) true "SIGTERM",
       CancelEffect.scheduleCleanup [build_id] 5 ])

/-! ## Build path validation (`Build.build_path`, modelled) -/

/-- Modelled from the spec: `Build.build_path` (orm, not under `src/`).
The path is derived from the store directory, the namespace and the build
key; if the resulting string exceeds 255 characters the build is rejected
with a `BuildPathError` whose message is
`build_path too long: must be <= 255 characters`, before any filesystem
write. -/
def build_path (store_directory namespace_name build_key : String) :
    Except String String :=
  if 255 < (store_directory ++ "/" ++ namespace_name ++ "/" ++ build_key).length then
    .error "build_path too long: must be <= 255 characters"
  else
    .ok (store_directory ++ "/" ++ namespace_name ++ "/" ++ build_key)

/-- A store directory of 800 characters, as in `test_build_path_too_long`. -/
def store800 : String := String.mk (List.replicate 800 'A')

/-! ## Namespace create/delete handlers (views/api.py lines 335-355 and 626-647) -/

/-- The persisted namespace table, as visible to the two handlers: the
names of the non-deleted namespaces. -/
structure DbState where
  namespaces : List String
  deriving DecidableEq, Repr

/-- The POST `/namespace/{namespace}/` handler: authorization first, then
existence check, then the staged create and commit.  Returns the HTTP
outcome and the database state after the request. -/
def api_create_namespace (authorized : Bool) (db : DbState) (ns : String) :
    Except HttpError Unit × DbState :=
  if ¬ authorized then
    (.error ⟨403, "forbidden"⟩, db)
  else if db.namespaces.contains ns then
    (.error ⟨409, "namespace already exists"⟩, db)
  else
    (.ok (), ⟨db.namespaces ++ [ns]⟩)

/-- The DELETE `/namespace/{namespace}/` handler: authorization first,
then existence check, then the delete. -/
def api_delete_namespace (authorized : Bool) (db : DbState) (ns : String) :
    Except HttpError Unit × DbState :=
  if ¬ authorized then
    (.error ⟨403, "forbidden"⟩, db)
  else if ¬ db.namespaces.contains ns then
    (.error ⟨404, "namespace does not exist"⟩, db)
  else
    (.ok (), ⟨db.namespaces.filter fun n => n ≠ ns⟩)

/-! ## Key-value settings store (modelled) -/

/-- The key-value store table: rows `(prefix, key, value)`. -/
abbrev KvState := List (String × String × Int)

/-- Processing of a single `(key, value)` item by
`set_kvstore_key_values`: if a row for `(pfx, key)` exists, overwrite its
value only when `update` is true; otherwise insert a new row. -/
def kvSetStep (update : Bool) (pfx : String) (st : KvState)
    (kv : String × Int) : KvState :=
  if st.any fun r => r.1 == pfx && r.2.1 == kv.1 then
    if update then
      st.map fun r =>
        if r.1 == pfx && r.2.1 == kv.1 then (r.1, r.2.1, kv.2) else r
    else st
  else
    st ++ [(pfx, kv.1, kv.2)]

/-- Modelled from the spec: `set_kvstore_key_values` (not under `src/`).
Iterates over the items of the given map; `update=True` (the default)
merges new values over existing keys, `update=False` only inserts keys
that are absent. -/
def set_kvstore_key_values (db : KvState) (pfx : String)
    (d : List (String × Int)) (update : Bool := true) : KvState :=
  d.foldl (kvSetStep update pfx) db

/-- Modelled from the spec: `get_kvstore_key_values` (not under `src/`).
Returns all key/value pairs stored at exactly the given prefix. -/
def get_kvstore_key_values (db : KvState) (pfx : String) : List (String × Int) :=
  (db.filter fun r => r.1 == pfx).map fun r => r.2

/-- Lookup of one key in the map returned by `get_kvstore_key_values`. -/
def kvLookup (m : List (String × Int)) (k : String) : Option Int :=
  (m.find? fun r => r.1 == k).map fun r => r.2

/-- Direct lookup of `(prefix, key)` in the raw table: the first matching
row's value. -/
def kvFind (db : KvState) (pfx k : String) : Option Int :=
  (db.find? fun r => r.1 == pfx && r.2.1 == k).map fun r => r.2.2

/-! ## Theorems -/

theorem nil_mem_suffixes (s : List Char) : [] ∈ suffixes s := by
  induction s with
  | nil => simp [suffixes]
  | cons c cs ih => simp [suffixes, ih]

theorem matchGlob_star (s : List Char) : matchGlob ['*'] s = true := by
  simp only [matchGlob, eq_self_iff_true, if_true, List.any_eq_true]
  exact ⟨[], nil_mem_suffixes s, rfl⟩

theorem matchGlob_refl (l : List Char) (h : '*' ∉ l) : matchGlob l l = true := by
  induction l with
  | nil => rfl
  | cons c cs ih =>
    simp only [List.mem_cons, not_or] at h
    simp only [matchGlob, if_neg (Ne.symm h.1), beq_self_eq_true, Bool.true_and]
    exact ih h.2

theorem mem_filter_environments (m : String → String → Bool)
    (bs : List (String × List String)) (envs : List Env) (e : Env) :
    e ∈ filter_environments m bs envs ↔
      e ∈ envs ∧ ∃ b ∈ bs, m b.1 (envArn e) = true := by
  simp [filter_environments, List.mem_filter, List.any_eq_true]

/-- C1: the claim says `*` is supported only as a full-segment wildcard, so
that a pattern segment matches an ARN segment exactly when it is literally
equal or is the single character `*`.  This is false on the code: the
repository test expects the binding `pytest*/env*` to yield environments
`env1`, `env2`, `env3`, although under full-segment-only matching that
pattern matches no ARN of the fixture. -/
theorem c1_counterexample :
    matchArnSpecWords "pytest*/env*" "pytest1/env1" = false ∧
    (filter_environments matchArnSpecWords [("pytest*/env*", ["viewer"])]
        testEnvs).map Env.name = [] ∧
    (filter_environments matchArn [("pytest*/env*", ["viewer"])]
        testEnvs).map Env.name = ["env1", "env2", "env3"] := by
  decide

/-- C1 (amended): `*` is a glob that matches any run of characters within a
segment (never crossing `/`).  Literal equality and the full-segment
wildcard remain sufficient to match, filtering returns exactly the
environments whose ARN is matched by some binding pattern, and the glob
semantics reproduces all five scenarios of
`test_list_environments_role_bindings`. -/
theorem c1_pattern_matching :
    (∀ s : List Char, matchGlob ['*'] s = true) ∧
    (∀ l : List Char, '*' ∉ l → matchGlob l l = true) ∧
    (∀ (m : String → String → Bool) (bs : List (String × List String))
        (envs : List Env) (e : Env),
      e ∈ filter_environments m bs envs ↔
        e ∈ envs ∧ ∃ b ∈ bs, m b.1 (envArn e) = true) ∧
    (filter_environments matchArn [("*/env1", ["viewer"])] testEnvs).map Env.name
        = ["env1"] ∧
    (filter_environments matchArn [("pytest2/*", ["viewer"]), ("e*/e*", ["admin"])]
        testEnvs).map Env.name = ["env2"] ∧
    (filter_environments matchArn [("pytest3/env3", ["viewer"])] testEnvs).map Env.name
        = ["env3"] ∧
    (filter_environments matchArn [("pytest*/env*", ["viewer"])] testEnvs).map Env.name
        = ["env1", "env2", "env3"] ∧
    (filter_environments matchArn [("*/*", ["viewer"])] testEnvs).map Env.name
        = ["env1", "env2", "env3", "foo"] := by
  exact ⟨matchGlob_star, matchGlob_refl, mem_filter_environments,
    by decide, by decide, by decide, by decide, by decide⟩

/-- C1 witness: the amended theorem applied at concrete inputs. -/
theorem c1_pattern_matching_witness :
    matchGlob "pytest1".data "pytest1".data = true :=
  c1_pattern_matching.2.1 "pytest1".data (by decide)

theorem lockfile_any_empty_iff (artifacts : List BuildArtifact)
    (t : BuildArtifactType) :
    ((list_build_artifacts artifacts [t]).any fun ba => ba.key == "") = true ↔
      ∃ ba ∈ artifacts, ba.artifact_type = t ∧ ba.key = "" := by
  simp only [list_build_artifacts, List.any_eq_true, List.mem_filter,
    List.contains_cons, List.contains_nil, Bool.or_false, beq_iff_eq]
  constructor
  · rintro ⟨ba, ⟨hmem, hty⟩, hkey⟩
    exact ⟨ba, hmem, hty, hkey⟩
  · rintro ⟨ba, hmem, hty, hkey⟩
    exact ⟨ba, ⟨hmem, hty⟩, by simp [hkey]⟩

/-- C4: in the lockfile endpoint, the legacy reconstruction is returned
exactly when some registered LOCKFILE-type artifact has an empty key (the
pre-redesign sentinel); otherwise the response redirects to the blob-store
URL of the build's `conda_lock_key`. -/
theorem c4_build_lockfile (get_url : String → String)
    (artifacts : List BuildArtifact) (conda_lock_key : String) (build_id : Nat) :
    (api_get_build_lockfile get_url artifacts conda_lock_key build_id
        = LockfileResponse.legacy build_id ↔
      ∃ ba ∈ artifacts, ba.artifact_type = BuildArtifactType.lockfile ∧ ba.key = "") ∧
    (api_get_build_lockfile get_url artifacts conda_lock_key build_id
        = LockfileResponse.redirect (get_url conda_lock_key) ↔
      ¬ ∃ ba ∈ artifacts, ba.artifact_type = BuildArtifactType.lockfile ∧ ba.key = "") := by
  have hiff := lockfile_any_empty_iff artifacts BuildArtifactType.lockfile
  cases hb : (list_build_artifacts artifacts [BuildArtifactType.lockfile]).any
      fun ba => ba.key == "" with
  | true =>
    rw [hb] at hiff
    simp only [api_get_build_lockfile, hb, if_true]
    simp [← hiff]
  | false =>
    rw [hb] at hiff
    simp only [api_get_build_lockfile, hb, Bool.false_eq_true, if_false]
    simp [← hiff]

/-- C5: for an existing, authorized build, the broker is pinged before any
revocation; a failed ping yields a 409 with no revoke and no cleanup, and
only on a live broker are exactly the four tasks `build-{id}-{phase}`
revoked, followed by the delayed cleanup task. -/
theorem c5_build_cancel (build_id : Nat) :
    (api_put_build_cancel true true false build_id
      = (.error ⟨409, "conda-store celery broker does not support task cancelation"⟩,
         [CancelEffect.ping])) ∧
    (api_put_build_cancel true true true build_id
      = (.ok ("build " ++ toString build_id ++ " canceled"),
         [CancelEffect.ping,
          CancelEffect.revoke (cancelTaskNames build_id) true "SIGTERM",
          CancelEffect.scheduleCleanup [build_id] 5])) ∧
    (∀ build_exists authorized ping_alive : Bool,
      (api_put_build_cancel build_exists authorized ping_alive build_id).2 = [] ∨
        (api_put_build_cancel build_exists authorized ping_alive build_id).2.head?
          = some CancelEffect.ping) ∧
    ((cancelTaskNames build_id).length = 4 ∧
      ∀ n ∈ cancelTaskNames build_id,
        ∃ phase ∈ ["conda-env-export", "conda-pack", "constructor-installer",
                   "environment"],
          n = "build-" ++ toString build_id ++ "-" ++ phase) := by
  refine ⟨rfl, rfl, ?_, rfl, ?_⟩
  · intro be au pa
    cases be <;> cases au <;> cases pa <;> simp [api_put_build_cancel]
  · intro n hn
    simp only [cancelTaskNames, List.mem_cons, List.not_mem_nil, or_false] at hn
    rcases hn with h | h | h | h
    · exact ⟨"conda-env-export", by simp,
        by rw [h, String.append_assoc ("build-" ++ toString build_id) "-" "conda-env-export"]; rfl⟩
    · exact ⟨"conda-pack", by simp,
        by rw [h, String.append_assoc ("build-" ++ toString build_id) "-" "conda-pack"]; rfl⟩
    · exact ⟨"constructor-installer", by simp,
        by rw [h, String.append_assoc ("build-" ++ toString build_id) "-" "constructor-installer"]; rfl⟩
    · exact ⟨"environment", by simp,
        by rw [h, String.append_assoc ("build-" ++ toString build_id) "-" "environment"]; rfl⟩

/-- C6: whenever the computed build path exceeds 255 characters — in
particular whenever the store directory alone does, such as one of 800
characters — the build is rejected with a `BuildPathError` whose message
contains `must be <= 255 characters`, and no path is ever produced in
that case. -/
theorem c6_build_path (s n k : String) :
    (255 < (s ++ "/" ++ n ++ "/" ++ k).length →
      build_path s n k = .error "build_path too long: must be <= 255 characters") ∧
    (255 < s.length →
      build_path s n k = .error "build_path too long: must be <= 255 characters") ∧
    (∃ a b : String, "build_path too long: must be <= 255 characters"
      = a ++ "must be <= 255 characters" ++ b) := by
  refine ⟨?_, ?_, ⟨"build_path too long: ", "", rfl⟩⟩
  · intro h
    unfold build_path
    rw [if_pos h]
  · intro h
    have h2 : 255 < (s ++ "/" ++ n ++ "/" ++ k).length := by
      have hslash : ("/" : String).length = 1 := rfl
      simp only [String.length_append, hslash]
      omega
    unfold build_path
    rw [if_pos h2]

/-- C6 witness: an 800-character store directory triggers the error. -/
theorem c6_build_path_witness :
    build_path store800 "pytest" "key"
      = .error "build_path too long: must be <= 255 characters" :=
  (c6_build_path store800 "pytest" "key").2.1
    (by
      have h : store800.length = 800 := by
        show (String.mk (List.replicate 800 'A')).length = 800
        rw [String.length]
        exact List.length_replicate 800 'A'
      omega)

/-- C7: when the authorization check of a mutating endpoint fails, the
handler short-circuits with a 403-equivalent and the persisted state is
unchanged, shown for `api_create_namespace` and `api_delete_namespace`. -/
theorem c7_authorization_short_circuits (db : DbState) (ns : String) :
    api_create_namespace false db ns = (.error ⟨403, "forbidden"⟩, db) ∧
    api_delete_namespace false db ns = (.error ⟨403, "forbidden"⟩, db) :=
  ⟨rfl, rfl⟩

theorem token_ok_exp_le (eb : AuthenticationToken → Bindings)
    (isSub : AuthenticationToken → AuthenticationToken → Bool)
    (now : Nat) (dns : String) (e : AuthenticationToken) (req : TokenRequest)
    (tok : AuthenticationToken)
    (h : api_post_token eb isSub now dns (some e) req = .ok tok) :
    tok.exp ≤ e.exp := by
  unfold api_post_token at h
  simp only [Option.getD_some] at h
  split at h
  · exact absurd h (by simp)
  · split at h
    · exact absurd h (by simp)
    · rename_i hlt
      injection h with h
      rw [← h]
      exact Nat.le_of_not_lt hlt

/-- C2: if the requested role bindings are not a subset of the issuing
entity's permissions (per `is_subset_entity_permissions`) the request is
rejected with a 400 and no token is issued.  But the claim's `otherwise a
token carrying the requested bindings is returned` is false: even with the
subset check passing, a requested expiration beyond the entity's own is
rejected with a 400 and no token. -/
theorem c2_counterexample :
    api_post_token (fun e => e.role_bindings) (fun _ _ => true) 0 "default"
      (some { exp := 100, primary_namespace := "default",
              role_bindings := [("default/*", ["admin"])] })
      { primary_namespace := none, expiration := some 200, role_bindings := none }
    = .err 400 "Requested expiration of token is greater than current permissions" := by
  rfl

/-- C2 (amended): a non-subset request is rejected with the 400 subset
failure and no token; otherwise, provided the requested expiration does
not exceed the entity's own, the minted token carries the requested
bindings (a nonempty requested binding set is taken verbatim). -/
theorem c2_token_subset (eb : AuthenticationToken → Bindings)
    (isSub : AuthenticationToken → AuthenticationToken → Bool)
    (now : Nat) (dns : String) (e : AuthenticationToken) (req : TokenRequest) :
    (isSub e (mkNewEntity eb e req) = false →
      api_post_token eb isSub now dns (some e) req
        = .err 400 "Requested role_bindings are not a subset of current permissions") ∧
    (isSub e (mkNewEntity eb e req) = true →
      (mkNewEntity eb e req).exp ≤ e.exp →
      api_post_token eb isSub now dns (some e) req = .ok (mkNewEntity eb e req)) ∧
    (∀ bs, req.role_bindings = some bs → bs ≠ [] →
      (mkNewEntity eb e req).role_bindings = bs) := by
  refine ⟨?_, ?_, ?_⟩
  · intro h
    unfold api_post_token
    simp only [Option.getD_some]
    rw [if_pos (by simp [h])]
  · intro h1 h2
    unfold api_post_token
    simp only [Option.getD_some]
    rw [if_neg (by simp [h1]), if_neg (Nat.not_lt.mpr h2)]
  · intro bs hbs hne
    simp only [mkNewEntity, hbs, orElseBindings]

/-- C2 witness: the amended theorem applied at concrete inputs where the
subset check fails. -/
theorem c2_token_subset_witness :
    api_post_token (fun e => e.role_bindings) (fun _ _ => false) 0 "default"
      (some { exp := 100, primary_namespace := "default", role_bindings := [] })
      { primary_namespace := none, expiration := none, role_bindings := none }
    = .err 400 "Requested role_bindings are not a subset of current permissions" :=
  (c2_token_subset (fun e => e.role_bindings) (fun _ _ => false) 0 "default"
    { exp := 100, primary_namespace := "default", role_bindings := [] }
    { primary_namespace := none, expiration := none, role_bindings := none }).1 rfl

/-- C10: a requested expiration later than the issuing entity's own is
rejected with a 400 (with the `Requested expiration` detail when the
subset check passes) and no token is issued; an issued token never
extends the entity's lifetime; an anonymous caller is treated as a
synthesized entity expiring one day from now with empty role bindings and
the default namespace, so an anonymous token expires at most one day from
now. -/
theorem c10_token_expiration (eb : AuthenticationToken → Bindings)
    (isSub : AuthenticationToken → AuthenticationToken → Bool)
    (now : Nat) (dns : String) (e : AuthenticationToken) (req : TokenRequest) :
    (∀ t, req.expiration = some t → e.exp < t →
      (∃ d, api_post_token eb isSub now dns (some e) req = .err 400 d) ∧
      api_post_token eb (fun _ _ => true) now dns (some e) req
        = .err 400 "Requested expiration of token is greater than current permissions") ∧
    (∀ tok, api_post_token eb isSub now dns (some e) req = .ok tok →
      tok.exp ≤ e.exp) ∧
    (api_post_token eb isSub now dns none req
      = api_post_token eb isSub now dns (some (anonymousEntity now dns)) req) ∧
    ((anonymousEntity now dns).exp = now + oneDay ∧
      (anonymousEntity now dns).role_bindings = [] ∧
      (anonymousEntity now dns).primary_namespace = dns) ∧
    (∀ tok, api_post_token eb isSub now dns none req = .ok tok →
      tok.exp ≤ now + oneDay) := by
  refine ⟨?_, ?_, rfl, ⟨rfl, rfl, rfl⟩, ?_⟩
  · intro t ht hlt
    have hexp : (mkNewEntity eb e req).exp = t := by
      simp [mkNewEntity, ht]
    constructor
    · cases hs : isSub e (mkNewEntity eb e req) with
      | false =>
        exact ⟨"Requested role_bindings are not a subset of current permissions",
          by unfold api_post_token
             simp only [Option.getD_some]
             rw [if_pos (by simp [hs])]⟩
      | true =>
        exact ⟨"Requested expiration of token is greater than current permissions",
          by unfold api_post_token
             simp only [Option.getD_some]
             rw [if_neg (by simp [hs]), if_pos (by rw [hexp]; exact hlt)]⟩
    · unfold api_post_token
      simp only [Option.getD_some]
      rw [if_neg (by simp), if_pos (by rw [hexp]; exact hlt)]
  · exact token_ok_exp_le eb isSub now dns e req
  · intro tok h
    exact token_ok_exp_le eb isSub now dns (anonymousEntity now dns) req tok h

/-- C10 witness: the theorem applied at concrete inputs. -/
theorem c10_token_expiration_witness :
    api_post_token (fun e => e.role_bindings) (fun _ _ => true) 0 "default"
      (some { exp := 100, primary_namespace := "default", role_bindings := [] })
      { primary_namespace := none, expiration := some 200, role_bindings := none }
    = .err 400 "Requested expiration of token is greater than current permissions" :=
  ((c10_token_expiration (fun e => e.role_bindings) (fun _ _ => true) 0 "default"
    { exp := 100, primary_namespace := "default", role_bindings := [] }
    { primary_namespace := none, expiration := some 200,
      role_bindings := none }).1 200 rfl (by decide)).2

theorem hasPair_false_iff (st : RoleRegistry) (ns other : String) :
    hasPair st ns other = false ↔
      ∀ row ∈ st.rows,
        ¬ (row.namespace_name = ns ∧ row.other_namespace = other) := by
  simp [hasPair, List.any_eq_false, not_and]

theorem create_ok_shape (st : RoleRegistry) (ns other roleName : String)
    (st' : RoleRegistry)
    (h : create_namespace_role st ns other roleName = .ok st') :
    ∃ r, parseRole roleName = some r ∧ hasPair st ns other = false ∧
      st'.rows = st.rows ++ [⟨st.nextId, ns, other, r⟩] ∧
      st'.nextId = st.nextId + 1 := by
  unfold create_namespace_role at h
  cases hr : parseRole roleName with
  | none => rw [hr] at h; exact absurd h (by simp)
  | some r =>
    rw [hr] at h
    cases hp : hasPair st ns other with
    | true => rw [hp] at h; exact absurd h (by simp)
    | false =>
      rw [hp] at h
      simp only [Bool.false_eq_true, if_false] at h
      injection h with h
      exact ⟨r, rfl, rfl, by rw [← h], by rw [← h]⟩

theorem update_ok_shape (st : RoleRegistry) (ns other roleName : String)
    (st' : RoleRegistry)
    (h : update_namespace_role st ns other roleName = .ok st') :
    ∃ r, parseRole roleName = some r ∧
      st'.rows = st.rows.map (updRow r ns other) ∧
      st'.nextId = st.nextId := by
  unfold update_namespace_role at h
  cases hr : parseRole roleName with
  | none => rw [hr] at h; exact absurd h (by simp)
  | some r =>
    rw [hr] at h
    injection h with h
    exact ⟨r, rfl, by rw [← h], by rw [← h]⟩

theorem updRow_id (r : Role) (ns other : String) (row : RoleRow) :
    (updRow r ns other row).id = row.id := by
  unfold updRow
  split <;> rfl

theorem updRow_namespace_name (r : Role) (ns other : String) (row : RoleRow) :
    (updRow r ns other row).namespace_name = row.namespace_name := by
  unfold updRow
  split <;> rfl

theorem updRow_other_namespace (r : Role) (ns other : String) (row : RoleRow) :
    (updRow r ns other row).other_namespace = row.other_namespace := by
  unfold updRow
  split <;> rfl

/-- C3: at most one namespace role mapping exists per directed pair
`(namespace, other)`: creating a duplicate fails with `DuplicateError`
(leaving the registry untouched, so the first mapping survives), every
registry operation preserves pair-uniqueness, and after deleting the
mapping a create for the same pair succeeds. -/
theorem c3_role_mapping_unique (st : RoleRegistry) (ns other roleName : String) :
    (∀ r, parseRole roleName = some r → hasPair st ns other = true →
      create_namespace_role st ns other roleName = .error RegError.duplicate) ∧
    (∀ st', PairUnique st →
      create_namespace_role st ns other roleName = .ok st' → PairUnique st') ∧
    (∀ st', PairUnique st →
      update_namespace_role st ns other roleName = .ok st' → PairUnique st') ∧
    (PairUnique st → PairUnique (delete_namespace_role st ns other)) ∧
    (∀ r, parseRole roleName = some r →
      ∃ st', create_namespace_role (delete_namespace_role st ns other)
        ns other roleName = .ok st') := by
  refine ⟨?_, ?_, ?_, ?_, ?_⟩
  · intro r hr hp
    unfold create_namespace_role
    rw [hr, hp]
    rfl
  · intro st' hu h
    obtain ⟨r, hr, hp, hrows, _⟩ := create_ok_shape st ns other roleName st' h
    unfold PairUnique at hu ⊢
    rw [hrows, List.pairwise_append]
    refine ⟨hu, by simp, ?_⟩
    intro a ha b hb
    simp only [List.mem_singleton] at hb
    subst hb
    exact (hasPair_false_iff st ns other).1 hp a ha
  · intro st' hu h
    obtain ⟨r, hr, hrows, _⟩ := update_ok_shape st ns other roleName st' h
    unfold PairUnique at hu ⊢
    rw [hrows, List.pairwise_map]
    refine hu.imp ?_
    intro a b hab
    simp only [updRow_namespace_name, updRow_other_namespace]
    exact hab
  · intro hu
    unfold PairUnique at hu ⊢
    unfold delete_namespace_role
    exact hu.sublist (List.filter_sublist st.rows)
  · intro r hr
    have hp : hasPair (delete_namespace_role st ns other) ns other = false := by
      rw [hasPair_false_iff]
      intro row hmem hcon
      unfold delete_namespace_role at hmem
      simp [List.mem_filter] at hmem
      rcases hmem.2 with hne | hne
      · exact hne hcon.1
      · exact hne hcon.2
    refine ⟨RoleRegistry.mk
      ((delete_namespace_role st ns other).rows ++
        [RoleRow.mk (delete_namespace_role st ns other).nextId ns other r])
      ((delete_namespace_role st ns other).nextId + 1), ?_⟩
    unfold create_namespace_role
    rw [hr, hp]
    rfl

/-- C3 witness: the theorem applied at a concrete registry holding the
pair, showing the duplicate rejection and the delete-then-create. -/
theorem c3_role_mapping_unique_witness :
    create_namespace_role ⟨[⟨1, "nsa", "nsb", Role.admin⟩], 2⟩ "nsa" "nsb" "admin"
      = .error RegError.duplicate :=
  (c3_role_mapping_unique ⟨[⟨1, "nsa", "nsb", Role.admin⟩], 2⟩
    "nsa" "nsb" "admin").1 Role.admin rfl (by decide)

/-- C9: listing a namespace's role mappings returns them in insertion
order (strictly ascending ids, preserved by create), an update keeps
every row's id, key and position unchanged (replacing only the role
field, and keeping every non-matching row verbatim), and a delete removes
exactly the row of the directed pair from the listing. -/
theorem c9_role_mapping_listing (st : RoleRegistry) (ns other roleName : String) :
    (RegistryWF st →
      ((get_namespace_roles st ns).map RoleRow.id).Pairwise (· < ·)) ∧
    (∀ st', RegistryWF st →
      create_namespace_role st ns other roleName = .ok st' → RegistryWF st') ∧
    (∀ st', update_namespace_role st ns other roleName = .ok st' →
      st'.rows.map (fun r => (r.id, r.namespace_name, r.other_namespace))
        = st.rows.map fun r => (r.id, r.namespace_name, r.other_namespace)) ∧
    (∀ st', update_namespace_role st ns other roleName = .ok st' →
      ∀ row ∈ st.rows,
        ¬ (row.namespace_name = ns ∧ row.other_namespace = other) →
        row ∈ st'.rows) ∧
    (get_namespace_roles (delete_namespace_role st ns other) ns
      = (get_namespace_roles st ns).filter
          fun r => ¬ (r.other_namespace == other)) := by
  refine ⟨?_, ?_, ?_, ?_, ?_⟩
  · intro hwf
    rw [List.pairwise_map]
    exact (hwf.1).sublist (List.filter_sublist st.rows)
  · intro st' hwf h
    obtain ⟨r, hr, hp, hrows, hnext⟩ := create_ok_shape st ns other roleName st' h
    constructor
    · rw [hrows, List.pairwise_append]
      refine ⟨hwf.1, by simp, ?_⟩
      intro a ha b hb
      simp only [List.mem_singleton] at hb
      subst hb
      exact hwf.2 a ha
    · intro row hmem
      rw [hrows] at hmem
      rw [hnext]
      rcases List.mem_append.1 hmem with hmem | hmem
      · exact Nat.lt_succ_of_lt (hwf.2 row hmem)
      · simp only [List.mem_singleton] at hmem
        subst hmem
        exact Nat.lt_succ_self _
  · intro st' h
    obtain ⟨r, hr, hrows, _⟩ := update_ok_shape st ns other roleName st' h
    rw [hrows, List.map_map]
    refine List.map_congr_left ?_
    intro row hmem
    simp only [Function.comp_apply, updRow_id, updRow_namespace_name,
      updRow_other_namespace]
  · intro st' h row hmem hkey
    obtain ⟨r, hr, hrows, _⟩ := update_ok_shape st ns other roleName st' h
    rw [hrows]
    refine List.mem_map.2 ⟨row, hmem, ?_⟩
    unfold updRow
    rw [if_neg]
    simp only [Bool.and_eq_true, beq_iff_eq, not_and]
    intro h1 h2
    exact hkey ⟨h1, h2⟩
  · unfold get_namespace_roles delete_namespace_role
    rw [List.filter_filter, List.filter_filter]
    refine List.filter_congr ?_
    intro row hmem
    cases h1 : row.namespace_name == ns <;>
      cases h2 : row.other_namespace == other <;>
        simp [h1, h2]

theorem kvLookup_get (db : KvState) (pfx k : String) :
    kvLookup (get_kvstore_key_values db pfx) k = kvFind db pfx k := by
  induction db with
  | nil => rfl
  | cons r rest ih =>
    unfold get_kvstore_key_values kvLookup kvFind at ih ⊢
    cases h1 : r.1 == pfx with
    | false => simpa [List.filter_cons, h1, List.find?_cons] using ih
    | true =>
      cases h2 : r.2.1 == k with
      | false => simpa [List.filter_cons, h1, h2, List.find?_cons] using ih
      | true => simp [List.filter_cons, h1, h2, List.find?_cons]

theorem kvFind_setStep_ne (u : Bool) (pfx : String) (st : KvState)
    (k' : String) (v' : Int) (k : String) (hk : k ≠ k') :
    kvFind (kvSetStep u pfx st (k', v')) pfx k = kvFind st pfx k := by
  unfold kvSetStep
  split
  · split
    · unfold kvFind
      rw [List.find?_map]
      have hpred : ((fun r : String × String × Int => r.1 == pfx && r.2.1 == k) ∘
          fun r : String × String × Int =>
            if r.1 == pfx && r.2.1 == (k', v').1 then (r.1, r.2.1, (k', v').2) else r)
          = fun r : String × String × Int => r.1 == pfx && r.2.1 == k := by
        funext r
        by_cases hc : (r.1 == pfx && r.2.1 == (k', v').1) = true
        · rw [Function.comp_apply, if_pos hc]
        · rw [Function.comp_apply, if_neg hc]
      rw [hpred]
      cases hf : st.find? fun r => r.1 == pfx && r.2.1 == k with
      | none => rfl
      | some e =>
        have hpe := List.find?_some hf
        simp only [Bool.and_eq_true, beq_iff_eq] at hpe
        have hne2 : (e.2.1 == (k', v').1) = false := by
          rw [hpe.2]
          simp [hk]
        simp only [Option.map_some']
        rw [if_neg (by simp [hne2])]
    · rfl
  · unfold kvFind
    rw [List.find?_append]
    have hsing : List.find? (fun r : String × String × Int => r.1 == pfx && r.2.1 == k)
        [(pfx, (k', v').1, (k', v').2)] = none := by
      simp [List.find?_cons, Ne.symm hk]
    rw [hsing, Option.or_none]

theorem kvFind_setStep_self (pfx : String) (st : KvState) (k : String) (v : Int) :
    kvFind (kvSetStep true pfx st (k, v)) pfx k = some v := by
  unfold kvSetStep
  split
  · rename_i hex
    rw [if_pos rfl]
    unfold kvFind
    rw [List.find?_map]
    have hpred : ((fun r : String × String × Int => r.1 == pfx && r.2.1 == k) ∘
        fun r : String × String × Int =>
          if r.1 == pfx && r.2.1 == (k, v).1 then (r.1, r.2.1, (k, v).2) else r)
        = fun r : String × String × Int => r.1 == pfx && r.2.1 == k := by
      funext r
      by_cases hc : (r.1 == pfx && r.2.1 == (k, v).1) = true
      · rw [Function.comp_apply, if_pos hc]
      · rw [Function.comp_apply, if_neg hc]
    rw [hpred]
    cases hf : st.find? fun r => r.1 == pfx && r.2.1 == k with
    | none =>
      rw [List.any_eq_true] at hex
      rw [List.find?_eq_none] at hf
      obtain ⟨x, hx, hpx⟩ := hex
      exact absurd hpx (hf x hx)
    | some e =>
      have hpe := List.find?_some hf
      simp only [Option.map_some']
      rw [if_pos hpe]
  · rename_i hex
    unfold kvFind
    rw [List.find?_append]
    have hany : (st.any fun r => r.1 == pfx && r.2.1 == (k, v).1) = false :=
      Bool.eq_false_iff.mpr hex
    have hnone : List.find?
        (fun r : String × String × Int => r.1 == pfx && r.2.1 == k) st = none := by
      rw [List.find?_eq_none]
      intro x hx
      exact List.any_eq_false.1 hany x hx
    rw [hnone]
    simp [List.find?_cons]

theorem kvFind_setStep_false_preserves (pfx : String) (st : KvState)
    (k' : String) (v' : Int) (k : String) (v : Int)
    (h : kvFind st pfx k = some v) :
    kvFind (kvSetStep false pfx st (k', v')) pfx k = some v := by
  unfold kvSetStep
  split
  · rw [if_neg (by simp)]
    exact h
  · unfold kvFind at h ⊢
    rw [List.find?_append]
    cases hf : st.find? fun r => r.1 == pfx && r.2.1 == k with
    | none => rw [hf] at h; exact absurd h (by simp)
    | some e =>
      rw [hf] at h
      simpa [Option.or] using h

theorem kvFind_fold_ne (u : Bool) (pfx : String) (d : List (String × Int))
    (st : KvState) (k : String) (hk : ∀ kv ∈ d, kv.1 ≠ k) :
    kvFind (d.foldl (kvSetStep u pfx) st) pfx k = kvFind st pfx k := by
  induction d generalizing st with
  | nil => rfl
  | cons kv rest ih =>
    rw [List.foldl_cons, ih _ fun x hx => hk x (List.mem_cons_of_mem _ hx)]
    exact kvFind_setStep_ne u pfx st kv.1 kv.2 k
      (Ne.symm (hk kv (List.mem_cons_self _ _)))

theorem kvFind_set_mem (db : KvState) (pfx : String) (d : List (String × Int)) :
    d.Pairwise (fun a b => a.1 ≠ b.1) →
    ∀ kv ∈ d, kvFind (set_kvstore_key_values db pfx d true) pfx kv.1 = some kv.2 := by
  induction d generalizing db with
  | nil =>
    intro _ kv h
    exact absurd h (List.not_mem_nil kv)
  | cons kv0 rest ih =>
    intro hnd kv hkv
    unfold set_kvstore_key_values at ih ⊢
    rw [List.foldl_cons]
    rcases List.mem_cons.1 hkv with heq | hmem
    · subst heq
      rw [kvFind_fold_ne true pfx rest _ kv.1
        fun x hx => Ne.symm ((List.pairwise_cons.1 hnd).1 x hx)]
      exact kvFind_setStep_self pfx db kv.1 kv.2
    · exact ih (kvSetStep true pfx db kv0) (List.pairwise_cons.1 hnd).2 kv hmem

theorem kvFind_set_false (db : KvState) (pfx : String) (d : List (String × Int))
    (k : String) (v : Int) :
    kvFind db pfx k = some v →
    kvFind (set_kvstore_key_values db pfx d false) pfx k = some v := by
  induction d generalizing db with
  | nil => exact fun h => h
  | cons kv0 rest ih =>
    intro h
    unfold set_kvstore_key_values at ih ⊢
    rw [List.foldl_cons]
    exact ih (kvSetStep false pfx db kv0)
      (kvFind_setStep_false_preserves pfx db kv0.1 kv0.2 k v h)

/-- C8: setting a map at a prefix and reading the prefix back returns a
map containing every pair of the set map (with `update=True`, the
default, new values merge over existing keys), while `update=False`
leaves the value of every already-present key unchanged. -/
theorem c8_kvstore_roundtrip (db : KvState) (pfx : String)
    (d : List (String × Int)) (k : String) (v : Int) :
    (d.Pairwise (fun a b => a.1 ≠ b.1) →
      ∀ kv ∈ d, kvLookup
        (get_kvstore_key_values (set_kvstore_key_values db pfx d true) pfx) kv.1
        = some kv.2) ∧
    (kvLookup (get_kvstore_key_values db pfx) k = some v →
      kvLookup
        (get_kvstore_key_values (set_kvstore_key_values db pfx d false) pfx) k
        = some v) := by
  constructor
  · intro hnd kv hkv
    rw [kvLookup_get]
    exact kvFind_set_mem db pfx d hnd kv hkv
  · intro h
    rw [kvLookup_get] at h ⊢
    exact kvFind_set_false db pfx d k v h

/-- C8 witness: the theorem applied at concrete inputs mirroring
`test_get_set_keyvaluestore`. -/
theorem c8_kvstore_roundtrip_witness :
    kvLookup (get_kvstore_key_values
      (set_kvstore_key_values [] "pytest" [("a", 1), ("b", 2)] true) "pytest") "a"
      = some 1 :=
  (c8_kvstore_roundtrip [] "pytest" [("a", 1), ("b", 2)] "a" 1).1
    (by decide) ("a", 1) (by decide)

/-- C9 witness: the theorem applied at a concrete registry. -/
theorem c9_role_mapping_listing_witness :
    ((get_namespace_roles ⟨[⟨1, "nsa", "nsb", Role.admin⟩,
        ⟨2, "nsa", "nsc", Role.viewer⟩], 3⟩ "nsa").map RoleRow.id).Pairwise
      (· < ·) :=
  (c9_role_mapping_listing ⟨[⟨1, "nsa", "nsb", Role.admin⟩,
      ⟨2, "nsa", "nsc", Role.viewer⟩], 3⟩ "nsa" "nsb" "admin").1
    ⟨by decide, by decide⟩

end CondaStoreSpec
